import Mathlib

/-!
# OWStreamRecordExRec: shallow embedding of `owstreamrecordexrec.cpp`

The filter state `OWStreamRecordExRec_data` becomes a Lean structure and the
callbacks `OWStreamRecordExRec_tick`, `OWStreamRecordExRec_render`, the `update`
lambda, `OWStreamRecordExRec_create` and `UploadThread` become pure functions on it.

Modelling conventions.
* `uint32_t` values are naturals; every `uint32_t` operation of the source is
  followed by an explicit reduction modulo `2 ^ 32`.
* `float` / `double` values (`since_last`, `interval`, the tick delta) are exact
  rationals; the literal `0.05` is `1 / 20`.
* Pointers and handles are naturals with `0` for null.  What the host returns
  (`obs_filter_get_target`, `gs_stagesurface_create`, `CreateFileMapping`,
  `gs_stagesurface_map`, ...) is an explicit environment argument.
* The mutex only brackets the blocks; a callback is modelled as running alone.
* `CreateThread(UploadThread, filter)` is modelled as handing the publisher the
  state as it is at the dispatch.
-/

namespace OWStreamRecordExRec

/-- Reduction of a natural to the range of `uint32_t`. -/
def u32 (x : Nat) : Nat := x % 2 ^ 32

/-- Addition of two `uint32_t` values. -/
def add32 (a b : Nat) : Nat := u32 (a + b)

/-- Multiplication of two `uint32_t` values. -/
def mul32 (a b : Nat) : Nat := u32 (a * b)

/-- What the pointer `filter->data` designates. -/
inductive DataPtr where
  /-- The pointer `nullptr`. -/
  | null : DataPtr
  /-- The block returned by `bzalloc(size)`: `size` zero bytes. -/
  | zeroed (size : Nat) : DataPtr
  /-- The bytes exposed by `gs_stagesurface_map`. -/
  | mapped (pixels : List Nat) : DataPtr
  deriving DecidableEq, Repr

/-- The byte at index `i` of the designated block; indices outside a block (and every
index of the null pointer), which C leaves undefined, read as `0`. -/
def DataPtr.read : DataPtr → Nat → Nat
  | DataPtr.null, _ => 0
  | DataPtr.zeroed _, _ => 0
  | DataPtr.mapped pixels, i => pixels.getD i 0

/-- The filter state, `struct OWStreamRecordExRec_data` (lines 13-28). -/
structure OWStreamRecordExRec_data where
  context : Nat
  interval : ℚ
  since_last : ℚ
  capture : Bool
  width : Nat
  height : Nat
  texrender : Nat
  staging_texture : Nat
  data : DataPtr
  linesize : Nat
  index : Nat
  shmem_size : Nat
  shmem : Nat
  mutex : Nat
  deriving DecidableEq, Repr

/-- The global `shmem_name` (line 30); `none` would be the null pointer. -/
def shmem_name : Option String := some "OWStreamRecordExRec:SHMEM"

/-- The four bytes of a 32-bit word in memory order on the little-endian targets of
the Windows build. -/
def le32 (x : Nat) : List Nat :=
  [x % 256, x / 256 % 256, x / 65536 % 256, x / 16777216 % 256]

/-- The publisher `UploadThread` (lines 32-50).  `view` tells whether `MapViewOfFile`
returned a view.  The result is the sequence of bytes stored from byte offset `0` of the
view, or `none` when nothing is stored.  `buf` is a `uint32_t *`, so `buf[k]` is at byte
offset `4 * k` and `&buf[4]` at byte offset `16`. -/
def UploadThread (view : Bool) (filter : OWStreamRecordExRec_data) : Option (List Nat) :=
  if filter.shmem ≠ 0 then
    if view then
      some (le32 filter.width ++ le32 filter.height ++ le32 filter.linesize ++
        le32 filter.index ++
        (List.range (mul32 filter.linesize filter.height)).map filter.data.read)
    else none
  else none

/-- The state built by `OWStreamRecordExRec_create` (lines 52-62): a zeroed block with
`context`, `texrender`, `interval = 0.5` and `mutex` filled in.  The settings reach the
state through the `update` callback. -/
def OWStreamRecordExRec_create (context texrender mutex : Nat) : OWStreamRecordExRec_data :=
  { context := context, interval := 1 / 2, since_last := 0, capture := false,
    width := 0, height := 0, texrender := texrender, staging_texture := 0,
    data := DataPtr.null, linesize := 0, index := 0, shmem_size := 0, shmem := 0,
    mutex := mutex }

/-- The `update` callback (lines 208-213). -/
def update (filter : OWStreamRecordExRec_data) (interval : ℚ) : OWStreamRecordExRec_data :=
  { filter with interval := interval }

/-- What the host answers during one `tick`: the target of the filter with its base
width and height (`none` when `obs_filter_get_target` is null), the surface returned by
`gs_stagesurface_create` and the handle returned by `CreateFileMapping`. -/
structure TickEnv where
  target : Option (Nat × Nat)
  stagesurface : Nat
  filemapping : Nat
  deriving DecidableEq, Repr

/-- The geometry block of `tick` (lines 104-141), entered with a present target whose
size is not `0 x 0`: the resize of lines 106-123 and the shared-region block of lines
124-141. -/
def tick_geometry (env : TickEnv) (width height : Nat)
    (filter : OWStreamRecordExRec_data) : OWStreamRecordExRec_data :=
  let upd : Bool := decide (width ≠ filter.width ∨ height ≠ filter.height)
  let f1 : OWStreamRecordExRec_data :=
    if upd then
      { filter with
        width := width, height := height,
        staging_texture := env.stagesurface,
        data := DataPtr.zeroed (mul32 (mul32 (add32 width 32) height) 4),
        capture := false, since_last := 0 }
    else filter
  if shmem_name.isSome then
    if upd then
      { f1 with
        shmem_size := add32 12 (mul32 (mul32 (add32 width 32) height) 4),
        shmem := env.filemapping }
    else f1
  else f1

/-- The clock block of `tick` (lines 142-146). -/
def tick_clock (filter : OWStreamRecordExRec_data) (t : ℚ) : OWStreamRecordExRec_data :=
  let f : OWStreamRecordExRec_data := { filter with since_last := filter.since_last + t }
  if f.since_last > f.interval - 1 / 20 then
    { f with capture := true, since_last := 0 }
  else f

/-- The callback `OWStreamRecordExRec_tick` (lines 83-148). -/
def OWStreamRecordExRec_tick (env : TickEnv) (filter : OWStreamRecordExRec_data) (t : ℚ) :
    OWStreamRecordExRec_data :=
  match env.target with
  | none =>
    { filter with width := 0, height := 0, staging_texture := 0, data := DataPtr.null }
  | some (width, height) =>
    if width = 0 ∧ height = 0 then filter
    else tick_clock (tick_geometry env width height filter) t

/-- Whether the tick takes the branch of lines 143-146, which sets `capture = true`. -/
def tick_arms (env : TickEnv) (filter : OWStreamRecordExRec_data) (t : ℚ) : Bool :=
  match env.target with
  | none => false
  | some (width, height) =>
    if width = 0 ∧ height = 0 then false
    else
      decide ((tick_geometry env width height filter).since_last + t >
        (tick_geometry env width height filter).interval - 1 / 20)

/-- What the host answers during one `render`: whether `obs_filter_get_parent` is
non-null, whether `gs_texrender_get_texture` is non-null, and the outcome of
`gs_stagesurface_map` (`none` on failure, else the line size and the mapped bytes). -/
structure RenderEnv where
  parent : Bool
  tex : Bool
  map : Option (Nat × List Nat)
  deriving DecidableEq, Repr

/-- The callback `OWStreamRecordExRec_render` (lines 150-192), restricted to its effect
on the state.  The second component is the state handed to `UploadThread` when the
publisher is started (line 182). -/
def OWStreamRecordExRec_render (env : RenderEnv) (filter : OWStreamRecordExRec_data) :
    OWStreamRecordExRec_data × Option OWStreamRecordExRec_data :=
  if !env.parent || decide (filter.width = 0) || decide (filter.height = 0)
      || !filter.capture then
    (filter, none)
  else if env.tex then
    match env.map with
    | some (linesize, pixels) =>
      let f : OWStreamRecordExRec_data :=
        { filter with data := DataPtr.mapped pixels, linesize := linesize }
      ({ f with capture := false }, some f)
    | none => ({ filter with capture := false }, none)
  else (filter, none)

/-- One call of the host on the filter. -/
inductive Op where
  | tick (env : TickEnv) (t : ℚ) : Op
  | render (env : RenderEnv) : Op
  | update (interval : ℚ) : Op
  deriving DecidableEq, Repr

/-- The effect of one call: the next state and the state handed to a started
publisher. -/
def step (filter : OWStreamRecordExRec_data) :
    Op → OWStreamRecordExRec_data × Option OWStreamRecordExRec_data
  | Op.tick env t => (OWStreamRecordExRec_tick env filter t, none)
  | Op.render env => OWStreamRecordExRec_render env filter
  | Op.update interval => (update filter interval, none)

/-- The state after a sequence of calls. -/
def run (filter : OWStreamRecordExRec_data) : List Op → OWStreamRecordExRec_data
  | [] => filter
  | op :: ops => run (step filter op).1 ops

/-- The tick time a call consumes: its delta for a tick, nothing otherwise. -/
def Op.dt : Op → ℚ
  | Op.tick _ t => t
  | Op.render _ => 0
  | Op.update _ => 0

/-- The publishes of a sequence of calls, in order: for each start of `UploadThread`,
the tick time elapsed (starting from `clock`) and the state handed to the publisher. -/
def publishes (clock : ℚ) (filter : OWStreamRecordExRec_data) :
    List Op → List (ℚ × OWStreamRecordExRec_data)
  | [] => []
  | op :: ops =>
    match (step filter op).2 with
    | some p => (clock + op.dt, p) :: publishes (clock + op.dt) (step filter op).1 ops
    | none => publishes (clock + op.dt) (step filter op).1 ops

/-- The sum of the tick deltas of a sequence of calls. -/
def tick_time : List Op → ℚ
  | [] => 0
  | op :: ops => op.dt + tick_time ops

/-- Whether a call arms a capture: a tick that takes the branch of lines 143-146. -/
def arms (filter : OWStreamRecordExRec_data) : Op → Bool
  | Op.tick env t => tick_arms env filter t
  | Op.render _ => false
  | Op.update _ => false

/-- No call of the sequence, run from `filter`, arms a capture. -/
def no_arm (filter : OWStreamRecordExRec_data) : List Op → Prop
  | [] => True
  | op :: ops => arms filter op = false ∧ no_arm (step filter op).1 ops

/-- The calls of the steady state at a `width x height` target: a tick that sees the
target at that size with a delta that is not negative, or a render.  The interval is
not rewritten. -/
def SteadyOp (width height : Nat) : Op → Prop
  | Op.tick env t => env.target = some (width, height) ∧ 0 ≤ t
  | Op.render _ => True
  | Op.update _ => False

/-- One frame of the host: a tick followed by a render. -/
def frame (tenv : TickEnv) (t : ℚ) (renv : RenderEnv) : List Op :=
  [Op.tick tenv t, Op.render renv]

/-- A render whose parent, texture and staging map are all available. -/
def render_ok (linesize : Nat) (pixels : List Nat) : RenderEnv :=
  { parent := true, tex := true, map := some (linesize, pixels) }

/-- The little-endian 32-bit word read from four bytes at byte offset `off`. -/
def word_at (bytes : List Nat) (off : Nat) : Nat :=
  bytes.getD off 0 + 256 * bytes.getD (off + 1) 0 + 65536 * bytes.getD (off + 2) 0 +
    16777216 * bytes.getD (off + 3) 0

/-- The region contents as the specification's layout table documents them: the three
words width, height and line-stride in a 12-byte header, the pixel payload from byte
offset `12`. -/
def spec_layout (filter : OWStreamRecordExRec_data) : List Nat :=
  le32 filter.width ++ le32 filter.height ++ le32 filter.linesize ++
    (List.range (mul32 filter.linesize filter.height)).map filter.data.read

/-- A state as handed to the publisher: 1 x 1, line size 4, one mapped RGBA pixel. -/
def layout_example : OWStreamRecordExRec_data :=
  { context := 1, interval := 1 / 2, since_last := 0, capture := true,
    width := 1, height := 1, texrender := 2, staging_texture := 3,
    data := DataPtr.mapped [255, 254, 253, 252], linesize := 4, index := 0,
    shmem_size := 144, shmem := 4, mutex := 5 }

/-- One row of 64 mapped RGBA pixels at line size 256. -/
def row_pixels : List Nat := List.replicate 256 255

/-- A first tick at a 32 x 1 target followed by a render whose staging map has line
size 256, the largest the scratch buffer is sized for (`(32 + 32) * 4`). -/
def overrun_ops : List Op :=
  [Op.tick ⟨some (32, 1), 7, 8⟩ 1, Op.render (render_ok 256 row_pixels)]

/-- The state handed to the publisher by `overrun_ops`. -/
def overrun_state : OWStreamRecordExRec_data :=
  { context := 1, interval := 1 / 2, since_last := 0, capture := true,
    width := 32, height := 1, texrender := 2, staging_texture := 7,
    data := DataPtr.mapped row_pixels, linesize := 256, index := 0,
    shmem_size := 268, shmem := 8, mutex := 3 }

/-- A first tick that sees a target of width `2 ^ 30` and height 1. -/
def wrap_ops : List Op := [Op.tick ⟨some (1073741824, 1), 7, 8⟩ 0]

/-- The mapped bytes of a 320 x 180 frame at line size 1280. -/
def frame_pixels : List Nat := List.replicate 230400 0

/-- Two frames at a 320 x 180 target; each tick (delta one second, interval `0.5`) arms
a capture and each render publishes. -/
def two_publish_ops : List Op :=
  frame ⟨some (320, 180), 7, 8⟩ 1 (render_ok 1280 frame_pixels) ++
    frame ⟨some (320, 180), 7, 8⟩ 1 (render_ok 1280 frame_pixels)

/-- An update to interval `0.1` followed by a first tick at a 320 x 180 target. -/
def sized_ops : List Op := [Op.update (1 / 10), Op.tick ⟨some (320, 180), 7, 8⟩ (1 / 60)]

/-- The state handed to the publisher by each of the two renders of
`two_publish_ops`. -/
def published_example : OWStreamRecordExRec_data :=
  { context := 1, interval := 1 / 2, since_last := 0, capture := true,
    width := 320, height := 180, texrender := 2, staging_texture := 7,
    data := DataPtr.mapped frame_pixels, linesize := 1280, index := 0,
    shmem_size := 253452, shmem := 8, mutex := 3 }

/-- The calls of `n` identical frames. -/
def repeat_frames (one : List Op) : Nat → List Op
  | 0 => []
  | n + 1 => one ++ repeat_frames one n

/-- One frame of the steady-state scenario: a tick of `1 / 60` s that sees the
320 x 180 target, then a render whose texture and staging map succeed. -/
def scenario_frame (stagesurface filemapping linesize : Nat) (pixels : List Nat) : List Op :=
  frame ⟨some (320, 180), stagesurface, filemapping⟩ (1 / 60) (render_ok linesize pixels)

/-- The binary32 value nearest to `1 / 60`: what the `float` parameter of `tick` holds
for a delta of one sixtieth of a second. -/
def f32_sixtieth : ℚ := 8947849 / 536870912

/-- One frame of the steady-state scenario with the delta a `float` can hold: a tick of
`f32_sixtieth` s that sees the 320 x 180 target, then a successful render. -/
def scenario_frame_f32 (stagesurface filemapping linesize : Nat) (pixels : List Nat) :
    List Op :=
  frame ⟨some (320, 180), stagesurface, filemapping⟩ f32_sixtieth (render_ok linesize pixels)

/-- The 60 frames of the scenario at the delta a `float` can hold, as entries (delta,
line size, mapped bytes) of `steady_frames`. -/
def f32_frames : List (ℚ × Nat × List Nat) :=
  List.replicate 60 (f32_sixtieth, 1280, frame_pixels)

/-- The other reading of the steady-state scenario: 60 ticks of `1 / 60` s that see the
320 x 180 target, then a single successful render. -/
def scenario_ticks_then_render (stagesurface filemapping linesize : Nat)
    (pixels : List Nat) : List Op :=
  repeat_frames [Op.tick ⟨some (320, 180), stagesurface, filemapping⟩ (1 / 60)] 60 ++
    [Op.render (render_ok linesize pixels)]

/-- The calls of a run in which the host renders, successfully, after every tick at a
`width x height` target; one entry (delta, line size, mapped bytes) per frame. -/
def steady_frames (width height stagesurface filemapping : Nat) :
    List (ℚ × Nat × List Nat) → List Op
  | [] => []
  | (t, linesize, pixels) :: fs =>
    frame ⟨some (width, height), stagesurface, filemapping⟩ t (render_ok linesize pixels) ++
      steady_frames width height stagesurface filemapping fs

/-- A steady run at 320 x 180 with interval `0.5` in which the host skips renders: a
first frame, then an arming tick of `0.5` s and a tick of `0.4` s before the next
render, then a frame with a tick of `0.1` s. -/
def late_render_ops : List Op :=
  [Op.tick ⟨some (320, 180), 7, 8⟩ 1, Op.render (render_ok 1280 frame_pixels),
   Op.tick ⟨some (320, 180), 7, 8⟩ (1 / 2), Op.tick ⟨some (320, 180), 7, 8⟩ (2 / 5),
   Op.render (render_ok 1280 frame_pixels),
   Op.tick ⟨some (320, 180), 7, 8⟩ (1 / 10), Op.render (render_ok 1280 frame_pixels)]

/-- A tick of delta `t` that sees the 320 x 180 target. -/
def example_tick (t : ℚ) : Op := Op.tick ⟨some (320, 180), 7, 8⟩ t

/-- A sized filter state: 320 x 180, interval `0.5`, accumulator at `0.25`. -/
def sized_example : OWStreamRecordExRec_data :=
  { context := 1, interval := 1 / 2, since_last := 1 / 4, capture := false,
    width := 320, height := 180, texrender := 2, staging_texture := 3,
    data := DataPtr.zeroed 253440, linesize := 1280, index := 0, shmem_size := 253452,
    shmem := 4, mutex := 5 }

end OWStreamRecordExRec

namespace OWStreamRecordExRec

/-! ## The tick callback -/

theorem tick_geometry_same (env : TickEnv) (filter : OWStreamRecordExRec_data) :
    tick_geometry env filter.width filter.height filter = filter := by
  simp [tick_geometry]

theorem tick_geometry_changed (env : TickEnv) (filter : OWStreamRecordExRec_data)
    (w h : Nat) (hne : w ≠ filter.width ∨ h ≠ filter.height) :
    tick_geometry env w h filter =
      { filter with
        width := w, height := h, staging_texture := env.stagesurface,
        data := DataPtr.zeroed (mul32 (mul32 (add32 w 32) h) 4),
        capture := false, since_last := 0,
        shmem_size := add32 12 (mul32 (mul32 (add32 w 32) h) 4),
        shmem := env.filemapping } := by
  simp [tick_geometry, shmem_name, hne]

theorem tick_steady (env : TickEnv) (filter : OWStreamRecordExRec_data) (t : ℚ) (w h : Nat)
    (ht : env.target = some (w, h)) (hw : w = filter.width) (hh : h = filter.height)
    (hne : ¬ (w = 0 ∧ h = 0)) :
    OWStreamRecordExRec_tick env filter t = tick_clock filter t := by
  subst hw hh
  simp only [OWStreamRecordExRec_tick, ht, if_neg hne, tick_geometry_same]

theorem tick_clock_eq (filter : OWStreamRecordExRec_data) (t : ℚ) :
    tick_clock filter t =
      if filter.since_last + t > filter.interval - 1 / 20 then
        { filter with capture := true, since_last := 0 }
      else { filter with since_last := filter.since_last + t } := by
  simp only [tick_clock]

theorem tick_arms_sets_capture (env : TickEnv) (filter : OWStreamRecordExRec_data) (t : ℚ)
    (h : tick_arms env filter t = true) :
    (OWStreamRecordExRec_tick env filter t).capture = true ∧
      (OWStreamRecordExRec_tick env filter t).since_last = 0 := by
  cases ht : env.target with
  | none => simp [tick_arms, ht] at h
  | some wh =>
    obtain ⟨w, hgt⟩ := wh
    by_cases h0 : w = 0 ∧ hgt = 0
    · simp [tick_arms, ht, h0] at h
    · simp only [tick_arms, ht, if_neg h0, decide_eq_true_eq] at h
      simp only [OWStreamRecordExRec_tick, ht, if_neg h0, tick_clock_eq, if_pos h]
      exact ⟨trivial, trivial⟩

/-- C9. Frame clock: a tick that sees the target at the tracked, non-zero width and
height adds `t` to the accumulator; when the sum exceeds `interval - 0.05` it sets
`capture` and zeroes the accumulator, otherwise it stores the sum and leaves `capture`
alone; no other field changes. -/
theorem tick_frame_clock (env : TickEnv) (filter : OWStreamRecordExRec_data) (t : ℚ)
    (w h : Nat) (ht : env.target = some (w, h)) (hw : w = filter.width)
    (hh : h = filter.height) (hw0 : w ≠ 0) (hh0 : h ≠ 0) :
    OWStreamRecordExRec_tick env filter t =
      if filter.since_last + t > filter.interval - 1 / 20 then
        { filter with capture := true, since_last := 0 }
      else { filter with since_last := filter.since_last + t } := by
  have hne : ¬ (w = 0 ∧ h = 0) := fun hc => hw0 (hh0 hc.2).elim
  rw [tick_steady env filter t w h ht hw hh hne, tick_clock_eq]

theorem tick_frame_clock_witness :
    (320 : Nat) ≠ 0 ∧ (180 : Nat) ≠ 0 ∧
    OWStreamRecordExRec_tick ⟨some (320, 180), 7, 8⟩ sized_example (1 / 4) =
      if sized_example.since_last + 1 / 4 > sized_example.interval - 1 / 20 then
        { sized_example with capture := true, since_last := 0 }
      else { sized_example with since_last := sized_example.since_last + 1 / 4 } :=
  ⟨by decide, by decide,
    tick_frame_clock ⟨some (320, 180), 7, 8⟩ sized_example (1 / 4) 320 180 rfl rfl rfl
      (by decide) (by decide)⟩

/-- C7. A tick without a target zeroes `width` and `height`, nulls the staging surface
and the scratch buffer, and leaves every other field as it was: the shared-memory handle
and `shmem_size` are retained, and `interval`, the accumulator, `capture`, `linesize`
and `index` are untouched. -/
theorem tick_target_absent (env : TickEnv) (filter : OWStreamRecordExRec_data) (t : ℚ)
    (h : env.target = none) :
    (OWStreamRecordExRec_tick env filter t).width = 0 ∧
    (OWStreamRecordExRec_tick env filter t).height = 0 ∧
    (OWStreamRecordExRec_tick env filter t).staging_texture = 0 ∧
    (OWStreamRecordExRec_tick env filter t).data = DataPtr.null ∧
    (OWStreamRecordExRec_tick env filter t).shmem = filter.shmem ∧
    (OWStreamRecordExRec_tick env filter t).shmem_size = filter.shmem_size ∧
    (OWStreamRecordExRec_tick env filter t).interval = filter.interval ∧
    (OWStreamRecordExRec_tick env filter t).since_last = filter.since_last ∧
    (OWStreamRecordExRec_tick env filter t).capture = filter.capture ∧
    (OWStreamRecordExRec_tick env filter t).linesize = filter.linesize ∧
    (OWStreamRecordExRec_tick env filter t).index = filter.index ∧
    (OWStreamRecordExRec_tick env filter t).context = filter.context ∧
    (OWStreamRecordExRec_tick env filter t).texrender = filter.texrender ∧
    (OWStreamRecordExRec_tick env filter t).mutex = filter.mutex := by
  simp [OWStreamRecordExRec_tick, h]

theorem tick_target_absent_witness :
    (OWStreamRecordExRec_tick ⟨none, 7, 8⟩ sized_example (1 / 4)).width = 0 ∧
    (OWStreamRecordExRec_tick ⟨none, 7, 8⟩ sized_example (1 / 4)).height = 0 ∧
    (OWStreamRecordExRec_tick ⟨none, 7, 8⟩ sized_example (1 / 4)).staging_texture = 0 ∧
    (OWStreamRecordExRec_tick ⟨none, 7, 8⟩ sized_example (1 / 4)).data = DataPtr.null ∧
    (OWStreamRecordExRec_tick ⟨none, 7, 8⟩ sized_example (1 / 4)).shmem = 4 ∧
    (OWStreamRecordExRec_tick ⟨none, 7, 8⟩ sized_example (1 / 4)).shmem_size = 253452 :=
  have h := tick_target_absent ⟨none, 7, 8⟩ sized_example (1 / 4) rfl
  ⟨h.1, h.2.1, h.2.2.1, h.2.2.2.1, h.2.2.2.2.1, h.2.2.2.2.2.1⟩

/-- C6, counterexample. A tick that sees a `5 x 0` target (`width * height = 0`) is not
skipped: it resizes the freshly created state to `5 x 0`, installs a staging surface
and a scratch buffer, and creates a 12-byte shared region. -/
theorem tick_degenerate_not_skipped :
    (5 : Nat) * 0 = 0 ∧
    (OWStreamRecordExRec_tick ⟨some (5, 0), 7, 8⟩ (OWStreamRecordExRec_create 1 2 3) 0).width = 5 ∧
    (OWStreamRecordExRec_tick ⟨some (5, 0), 7, 8⟩
      (OWStreamRecordExRec_create 1 2 3) 0).staging_texture = 7 ∧
    (OWStreamRecordExRec_tick ⟨some (5, 0), 7, 8⟩
      (OWStreamRecordExRec_create 1 2 3) 0).data = DataPtr.zeroed 0 ∧
    (OWStreamRecordExRec_tick ⟨some (5, 0), 7, 8⟩ (OWStreamRecordExRec_create 1 2 3) 0).shmem = 8 ∧
    (OWStreamRecordExRec_tick ⟨some (5, 0), 7, 8⟩
      (OWStreamRecordExRec_create 1 2 3) 0).shmem_size = 12 ∧
    OWStreamRecordExRec_tick ⟨some (5, 0), 7, 8⟩ (OWStreamRecordExRec_create 1 2 3) 0 ≠
      OWStreamRecordExRec_create 1 2 3 := by
  have e : OWStreamRecordExRec_tick ⟨some (5, 0), 7, 8⟩ (OWStreamRecordExRec_create 1 2 3) 0 =
      { OWStreamRecordExRec_create 1 2 3 with
        width := 5, height := 0, staging_texture := 7, data := DataPtr.zeroed 0,
        shmem_size := 12, shmem := 8 } := by
    simp [OWStreamRecordExRec_tick, tick_geometry, tick_clock, shmem_name,
      OWStreamRecordExRec_create, add32, mul32, u32]
    norm_num
  rw [e]
  simp [OWStreamRecordExRec_create]

/-- C6, amended. A tick that sees the target with width and height both `0` is skipped:
the state after the tick is the state before it. -/
theorem tick_zero_geometry_skipped (env : TickEnv) (filter : OWStreamRecordExRec_data)
    (t : ℚ) (h : env.target = some (0, 0)) :
    OWStreamRecordExRec_tick env filter t = filter := by
  simp [OWStreamRecordExRec_tick, h]

theorem tick_zero_geometry_skipped_witness :
    OWStreamRecordExRec_tick ⟨some (0, 0), 7, 8⟩ sized_example (1 / 4) = sized_example :=
  tick_zero_geometry_skipped ⟨some (0, 0), 7, 8⟩ sized_example (1 / 4) rfl

end OWStreamRecordExRec

namespace OWStreamRecordExRec

/-! ## The render and update callbacks -/

theorem render_since_last (env : RenderEnv) (filter : OWStreamRecordExRec_data) :
    (OWStreamRecordExRec_render env filter).1.since_last = filter.since_last := by
  unfold OWStreamRecordExRec_render
  split
  · rfl
  · split
    · split <;> rfl
    · rfl

/-- C8, counterexample. After the reachable state with accumulator `1 / 4`, a tick that
sees a resized target discards the accumulated time (the accumulator becomes the delta
`1 / 8`, neither `1 / 4 + 1 / 8` nor `1 / 4`) and leaves `capture` false. -/
theorem resize_discards_accumulator :
    (run (OWStreamRecordExRec_create 1 2 3)
      [Op.update 1, Op.tick ⟨some (100, 100), 7, 8⟩ (1 / 4)]).since_last = 1 / 4 ∧
    (OWStreamRecordExRec_tick ⟨some (200, 100), 9, 10⟩
      (run (OWStreamRecordExRec_create 1 2 3)
        [Op.update 1, Op.tick ⟨some (100, 100), 7, 8⟩ (1 / 4)]) (1 / 8)).since_last = 1 / 8 ∧
    (1 / 8 : ℚ) ≠ 1 / 4 + 1 / 8 ∧ (1 / 8 : ℚ) ≠ 1 / 4 ∧
    (OWStreamRecordExRec_tick ⟨some (200, 100), 9, 10⟩
      (run (OWStreamRecordExRec_create 1 2 3)
        [Op.update 1, Op.tick ⟨some (100, 100), 7, 8⟩ (1 / 4)]) (1 / 8)).capture = false := by
  simp [run, step, update, OWStreamRecordExRec_create, OWStreamRecordExRec_tick,
    tick_geometry, tick_clock, shmem_name]
  norm_num

/-- C8, amended. The accumulator is zeroed only when a capture is armed or when the tick
sees a width or height different from the tracked one: after a tick the accumulator is
the old one plus the delta, or the old one (target absent or `0 x 0`), or the tick armed
(`capture` true, accumulator `0`), or the tick resized, in which case the accumulator
restarts at the delta and `capture` is false.  Render and update leave it alone. -/
theorem since_last_reset_cases (env : TickEnv) (filter : OWStreamRecordExRec_data) (t : ℚ) :
    ((OWStreamRecordExRec_tick env filter t).since_last = filter.since_last + t ∨
      (OWStreamRecordExRec_tick env filter t).since_last = filter.since_last ∨
      (tick_arms env filter t = true ∧
        (OWStreamRecordExRec_tick env filter t).capture = true ∧
        (OWStreamRecordExRec_tick env filter t).since_last = 0) ∨
      (∃ w h, env.target = some (w, h) ∧ (w ≠ filter.width ∨ h ≠ filter.height) ∧
        (OWStreamRecordExRec_tick env filter t).since_last = t ∧
        (OWStreamRecordExRec_tick env filter t).capture = false)) ∧
    (∀ renv : RenderEnv,
      (OWStreamRecordExRec_render renv filter).1.since_last = filter.since_last) ∧
    (∀ interval : ℚ, (update filter interval).since_last = filter.since_last) := by
  refine ⟨?_, fun renv => render_since_last renv filter, fun _ => rfl⟩
  cases ht : env.target with
  | none => right; left; simp [OWStreamRecordExRec_tick, ht]
  | some wh =>
    obtain ⟨w, h⟩ := wh
    by_cases h0 : w = 0 ∧ h = 0
    · right; left; simp [OWStreamRecordExRec_tick, ht, h0]
    · by_cases hne : w ≠ filter.width ∨ h ≠ filter.height
      · by_cases harm : (0 : ℚ) + t > filter.interval - 1 / 20
        · right; right; left
          simp only [OWStreamRecordExRec_tick, tick_arms, ht, if_neg h0,
            tick_geometry_changed env filter w h hne, tick_clock, if_pos harm]
          exact ⟨by simpa using harm, trivial, trivial⟩
        · right; right; right
          refine ⟨w, h, rfl, hne, ?_, ?_⟩
          · simp only [OWStreamRecordExRec_tick, ht, if_neg h0,
              tick_geometry_changed env filter w h hne, tick_clock, if_neg harm]
            simp
          · simp only [OWStreamRecordExRec_tick, ht, if_neg h0,
              tick_geometry_changed env filter w h hne, tick_clock, if_neg harm]
      · have hw : w = filter.width := by
          by_contra hc; exact hne (Or.inl hc)
        have hh : h = filter.height := by
          by_contra hc; exact hne (Or.inr hc)
        by_cases harm : filter.since_last + t > filter.interval - 1 / 20
        · right; right; left
          subst hw hh
          simp only [OWStreamRecordExRec_tick, tick_arms, ht, if_neg h0,
            tick_geometry_same, tick_clock, if_pos harm]
          exact ⟨by simpa using harm, trivial, trivial⟩
        · left
          rw [tick_steady env filter t w h ht hw hh h0, tick_clock_eq, if_neg harm]

end OWStreamRecordExRec

namespace OWStreamRecordExRec

/-! ## The publisher -/

theorem UploadThread_bytes (filter : OWStreamRecordExRec_data) (h : filter.shmem ≠ 0) :
    UploadThread true filter =
      some (le32 filter.width ++ le32 filter.height ++ le32 filter.linesize ++
        le32 filter.index ++
        (List.range (mul32 filter.linesize filter.height)).map filter.data.read) := by
  simp [UploadThread, h]

theorem header_words (a b c d : Nat) (payload : List Nat) :
    word_at (le32 a ++ le32 b ++ le32 c ++ le32 d ++ payload) 0 = u32 a ∧
    word_at (le32 a ++ le32 b ++ le32 c ++ le32 d ++ payload) 4 = u32 b ∧
    word_at (le32 a ++ le32 b ++ le32 c ++ le32 d ++ payload) 8 = u32 c ∧
    word_at (le32 a ++ le32 b ++ le32 c ++ le32 d ++ payload) 12 = u32 d := by
  simp only [word_at, le32, u32, List.cons_append, List.nil_append, List.getD_cons_zero,
    List.getD_cons_succ]
  refine ⟨?_, ?_, ?_, ?_⟩ <;> omega

theorem header_bytes (a b c d : Nat) (payload : List Nat) :
    ((le32 a ++ le32 b ++ le32 c ++ le32 d ++ payload).take 16).all
      (fun x => decide (x < 256)) = true ∧
    (le32 a ++ le32 b ++ le32 c ++ le32 d ++ payload).drop 16 = payload ∧
    (le32 a ++ le32 b ++ le32 c ++ le32 d ++ payload).length = 16 + payload.length := by
  simp only [le32, List.cons_append, List.nil_append, List.take_succ_cons, List.take_zero,
    List.drop_succ_cons, List.drop_zero, List.length_cons, List.all_cons, List.all_nil]
  refine ⟨?_, trivial, by omega⟩
  simp only [Bool.and_true, Bool.and_eq_true, decide_eq_true_eq]
  refine ⟨?_, ?_, ?_, ?_, ?_, ?_, ?_, ?_, ?_, ?_, ?_, ?_, ?_, ?_, ?_, ?_⟩ <;> omega

end OWStreamRecordExRec

namespace OWStreamRecordExRec

/-- C2, counterexample. For a 1 x 1 frame the publisher stores 20 bytes: the frame
index occupies byte offsets 12 to 15 and the pixel starts at byte offset 16, whereas
the documented layout has a 12-byte header with the pixel at byte offset 12. -/
theorem UploadThread_not_spec_layout :
    UploadThread true layout_example =
      some [1, 0, 0, 0, 1, 0, 0, 0, 4, 0, 0, 0, 0, 0, 0, 0, 255, 254, 253, 252] ∧
    spec_layout layout_example = [1, 0, 0, 0, 1, 0, 0, 0, 4, 0, 0, 0, 255, 254, 253, 252] ∧
    UploadThread true layout_example ≠ some (spec_layout layout_example) := by
  decide

/-- C2, amended. A publish with a shared region and a mapped view stores, from byte
offset 0, four little-endian 32-bit words (width at offset 0, height at 4, line size at
8, frame index at 12), so a header of 16 bytes, followed from byte offset 16 by the
`linesize * height` bytes of pixel payload. -/
theorem UploadThread_layout (filter : OWStreamRecordExRec_data) (h : filter.shmem ≠ 0) :
    ∃ bytes, UploadThread true filter = some bytes ∧
      bytes.length = 16 + mul32 filter.linesize filter.height ∧
      word_at bytes 0 = u32 filter.width ∧
      word_at bytes 4 = u32 filter.height ∧
      word_at bytes 8 = u32 filter.linesize ∧
      word_at bytes 12 = u32 filter.index ∧
      (bytes.take 16).all (fun b => decide (b < 256)) = true ∧
      bytes.drop 16 =
        (List.range (mul32 filter.linesize filter.height)).map filter.data.read := by
  refine ⟨_, UploadThread_bytes filter h, ?_, ?_, ?_, ?_, ?_, ?_, ?_⟩
  · rw [(header_bytes _ _ _ _ _).2.2]; simp
  · exact (header_words _ _ _ _ _).1
  · exact (header_words _ _ _ _ _).2.1
  · exact (header_words _ _ _ _ _).2.2.1
  · exact (header_words _ _ _ _ _).2.2.2
  · exact (header_bytes _ _ _ _ _).1
  · exact (header_bytes _ _ _ _ _).2.1

theorem UploadThread_layout_witness :
    layout_example.shmem ≠ 0 ∧
    ∃ bytes, UploadThread true layout_example = some bytes ∧
      bytes.length = 16 + mul32 layout_example.linesize layout_example.height ∧
      word_at bytes 0 = u32 layout_example.width ∧
      word_at bytes 4 = u32 layout_example.height ∧
      word_at bytes 8 = u32 layout_example.linesize ∧
      word_at bytes 12 = u32 layout_example.index ∧
      (bytes.take 16).all (fun b => decide (b < 256)) = true ∧
      bytes.drop 16 =
        (List.range (mul32 layout_example.linesize layout_example.height)).map
          layout_example.data.read :=
  ⟨by decide, UploadThread_layout layout_example (by decide)⟩

/-- C10, failing input. A 32 x 1 frame whose staging map has line size 256 satisfies
the sizing hypotheses (`shmem_size = 12 + (32 + 32) * 1 * 4 = 268`, `32 * 4 <= 256 <=
(32 + 32) * 4`), yet the publisher stores 272 bytes, so byte offsets 268 to 271 lie
past the end of the region. -/
theorem UploadThread_past_region :
    publishes 0 (OWStreamRecordExRec_create 1 2 3) overrun_ops = [(1, overrun_state)] ∧
    0 < overrun_state.width ∧ 0 < overrun_state.height ∧
    overrun_state.shmem_size = 12 + (overrun_state.width + 32) * overrun_state.height * 4 ∧
    12 + (overrun_state.width + 32) * overrun_state.height * 4 < 2 ^ 32 ∧
    overrun_state.width * 4 ≤ overrun_state.linesize ∧
    overrun_state.linesize ≤ (overrun_state.width + 32) * 4 ∧
    (UploadThread true overrun_state).map List.length = some 272 ∧
    ¬ (271 < overrun_state.shmem_size) := by
  refine ⟨?_, by decide, by decide, by decide, by decide, by decide, by decide, ?_, by decide⟩
  · have e : OWStreamRecordExRec_tick ⟨some (32, 1), 7, 8⟩ (OWStreamRecordExRec_create 1 2 3) 1 =
        { overrun_state with data := DataPtr.zeroed 256, linesize := 0 } := by
      simp [OWStreamRecordExRec_tick, tick_geometry, tick_clock, shmem_name,
        OWStreamRecordExRec_create, overrun_state]
      norm_num [add32, mul32, u32]
    simp only [publishes, overrun_ops, step, Op.dt]
    rw [e]
    simp [OWStreamRecordExRec_render, render_ok, overrun_state]
  · rw [UploadThread_bytes _ (by decide), Option.map_some', (header_bytes _ _ _ _ _).2.2]
    simp [overrun_state, mul32, u32]

end OWStreamRecordExRec

namespace OWStreamRecordExRec

/-! ## The size of the shared region -/

theorem region_size_mod (w h : Nat) :
    add32 12 (mul32 (mul32 (add32 w 32) h) 4) = (12 + (w + 32) * h * 4) % 2 ^ 32 := by
  simp only [add32, mul32, u32]
  rw [Nat.mod_mul_mod, Nat.add_mod_mod]
  exact Nat.ModEq.add_left 12
    (Nat.ModEq.mul_right 4 (Nat.ModEq.mul_right h (Nat.mod_modEq (w + 32) (2 ^ 32))))

theorem render_geometry (env : RenderEnv) (filter : OWStreamRecordExRec_data) :
    (OWStreamRecordExRec_render env filter).1.width = filter.width ∧
    (OWStreamRecordExRec_render env filter).1.height = filter.height ∧
    (OWStreamRecordExRec_render env filter).1.shmem_size = filter.shmem_size ∧
    (OWStreamRecordExRec_render env filter).1.interval = filter.interval ∧
    (OWStreamRecordExRec_render env filter).1.index = filter.index := by
  unfold OWStreamRecordExRec_render
  split
  · exact ⟨rfl, rfl, rfl, rfl, rfl⟩
  · split
    · split <;> exact ⟨rfl, rfl, rfl, rfl, rfl⟩
    · exact ⟨rfl, rfl, rfl, rfl, rfl⟩

theorem tick_clock_fields (filter : OWStreamRecordExRec_data) (t : ℚ) :
    (tick_clock filter t).width = filter.width ∧
    (tick_clock filter t).height = filter.height ∧
    (tick_clock filter t).shmem_size = filter.shmem_size ∧
    (tick_clock filter t).interval = filter.interval ∧
    (tick_clock filter t).index = filter.index := by
  rw [tick_clock_eq]
  split <;> exact ⟨rfl, rfl, rfl, rfl, rfl⟩

theorem size_inv_step (filter : OWStreamRecordExRec_data) (op : Op)
    (h : (filter.width = 0 ∧ filter.height = 0) ∨
      filter.shmem_size = add32 12 (mul32 (mul32 (add32 filter.width 32) filter.height) 4)) :
    ((step filter op).1.width = 0 ∧ (step filter op).1.height = 0) ∨
      (step filter op).1.shmem_size =
        add32 12 (mul32 (mul32 (add32 (step filter op).1.width 32)
          (step filter op).1.height) 4) := by
  cases op with
  | tick env t =>
    simp only [step]
    cases ht : env.target with
    | none => left; simp [OWStreamRecordExRec_tick, ht]
    | some wh =>
      obtain ⟨w, hgt⟩ := wh
      by_cases h0 : w = 0 ∧ hgt = 0
      · simpa [OWStreamRecordExRec_tick, ht, h0] using h
      · simp only [OWStreamRecordExRec_tick, ht, if_neg h0]
        obtain ⟨e1, e2, e3, -, -⟩ := tick_clock_fields (tick_geometry env w hgt filter) t
        rw [e1, e2, e3]
        by_cases hne : w ≠ filter.width ∨ hgt ≠ filter.height
        · right; rw [tick_geometry_changed env filter w hgt hne]
        · have hw : w = filter.width := by
            by_contra hc; exact hne (Or.inl hc)
          have hh : hgt = filter.height := by
            by_contra hc; exact hne (Or.inr hc)
          subst hw hh
          rw [tick_geometry_same]; exact h
  | render env =>
    simp only [step]
    obtain ⟨e1, e2, e3, -, -⟩ := render_geometry env filter
    rw [e1, e2, e3]; exact h
  | update interval => exact h

theorem size_inv_run (ops : List Op) (filter : OWStreamRecordExRec_data)
    (h : (filter.width = 0 ∧ filter.height = 0) ∨
      filter.shmem_size = add32 12 (mul32 (mul32 (add32 filter.width 32) filter.height) 4)) :
    ((run filter ops).width = 0 ∧ (run filter ops).height = 0) ∨
      (run filter ops).shmem_size =
        add32 12 (mul32 (mul32 (add32 (run filter ops).width 32) (run filter ops).height) 4) := by
  induction ops generalizing filter with
  | nil => exact h
  | cons op ops ih => exact ih _ (size_inv_step filter op h)

/-- C3, counterexample. After a first tick that sees a `2 ^ 30 x 1` target,
`width * height > 0` and the recorded `shmem_size` is 140, while
`12 + (width + 32) * height * 4` is 4294967436: the size computation wraps around in
32 bits. -/
theorem shmem_size_wraps :
    0 < (run (OWStreamRecordExRec_create 1 2 3) wrap_ops).width *
      (run (OWStreamRecordExRec_create 1 2 3) wrap_ops).height ∧
    (run (OWStreamRecordExRec_create 1 2 3) wrap_ops).shmem_size = 140 ∧
    12 + ((run (OWStreamRecordExRec_create 1 2 3) wrap_ops).width + 32) *
      (run (OWStreamRecordExRec_create 1 2 3) wrap_ops).height * 4 = 4294967436 ∧
    (run (OWStreamRecordExRec_create 1 2 3) wrap_ops).shmem_size ≠
      12 + ((run (OWStreamRecordExRec_create 1 2 3) wrap_ops).width + 32) *
        (run (OWStreamRecordExRec_create 1 2 3) wrap_ops).height * 4 := by
  have e : run (OWStreamRecordExRec_create 1 2 3) wrap_ops =
      { OWStreamRecordExRec_create 1 2 3 with
        width := 1073741824, height := 1, staging_texture := 7,
        data := DataPtr.zeroed 128, shmem_size := 140, shmem := 8 } := by
    simp [run, wrap_ops, step, OWStreamRecordExRec_tick, tick_geometry, tick_clock,
      shmem_name, OWStreamRecordExRec_create]
    norm_num [add32, mul32, u32]
  rw [e]
  decide

/-- C3, amended. In every state reached from the created state by ticks, renders and
updates, if `width * height > 0` then `shmem_size` is `12 + (width + 32) * height * 4`
reduced modulo `2 ^ 32`, which is `12 + (width + 32) * height * 4` itself whenever that
value is below `2 ^ 32`. -/
theorem shmem_size_invariant (context texrender mutex : Nat) (ops : List Op)
    (h : 0 < (run (OWStreamRecordExRec_create context texrender mutex) ops).width *
      (run (OWStreamRecordExRec_create context texrender mutex) ops).height) :
    (run (OWStreamRecordExRec_create context texrender mutex) ops).shmem_size =
      (12 + ((run (OWStreamRecordExRec_create context texrender mutex) ops).width + 32) *
        (run (OWStreamRecordExRec_create context texrender mutex) ops).height * 4) % 2 ^ 32 ∧
    (12 + ((run (OWStreamRecordExRec_create context texrender mutex) ops).width + 32) *
        (run (OWStreamRecordExRec_create context texrender mutex) ops).height * 4 < 2 ^ 32 →
      (run (OWStreamRecordExRec_create context texrender mutex) ops).shmem_size =
        12 + ((run (OWStreamRecordExRec_create context texrender mutex) ops).width + 32) *
          (run (OWStreamRecordExRec_create context texrender mutex) ops).height * 4) := by
  have hinv := size_inv_run ops (OWStreamRecordExRec_create context texrender mutex)
    (Or.inl ⟨rfl, rfl⟩)
  have hsz : (run (OWStreamRecordExRec_create context texrender mutex) ops).shmem_size =
      (12 + ((run (OWStreamRecordExRec_create context texrender mutex) ops).width + 32) *
        (run (OWStreamRecordExRec_create context texrender mutex) ops).height * 4) % 2 ^ 32 := by
    rcases hinv with ⟨hw, -⟩ | hs
    · rw [hw] at h; simp at h
    · rw [hs, region_size_mod]
  exact ⟨hsz, fun hlt => by rw [hsz, Nat.mod_eq_of_lt hlt]⟩

end OWStreamRecordExRec

namespace OWStreamRecordExRec

theorem shmem_size_invariant_witness :
    0 < (run (OWStreamRecordExRec_create 1 2 3) sized_ops).width *
      (run (OWStreamRecordExRec_create 1 2 3) sized_ops).height ∧
    (run (OWStreamRecordExRec_create 1 2 3) sized_ops).shmem_size =
      (12 + ((run (OWStreamRecordExRec_create 1 2 3) sized_ops).width + 32) *
        (run (OWStreamRecordExRec_create 1 2 3) sized_ops).height * 4) % 2 ^ 32 ∧
    (12 + ((run (OWStreamRecordExRec_create 1 2 3) sized_ops).width + 32) *
        (run (OWStreamRecordExRec_create 1 2 3) sized_ops).height * 4 < 2 ^ 32 →
      (run (OWStreamRecordExRec_create 1 2 3) sized_ops).shmem_size =
        12 + ((run (OWStreamRecordExRec_create 1 2 3) sized_ops).width + 32) *
          (run (OWStreamRecordExRec_create 1 2 3) sized_ops).height * 4) :=
  have hpos : 0 < (run (OWStreamRecordExRec_create 1 2 3) sized_ops).width *
      (run (OWStreamRecordExRec_create 1 2 3) sized_ops).height := by
    have e : run (OWStreamRecordExRec_create 1 2 3) sized_ops =
        { OWStreamRecordExRec_create 1 2 3 with
          interval := 1 / 10, since_last := 1 / 60, width := 320, height := 180,
          staging_texture := 7, data := DataPtr.zeroed 253440, shmem_size := 253452,
          shmem := 8 } := by
      simp [run, sized_ops, step, update, OWStreamRecordExRec_tick, tick_geometry,
        tick_clock, shmem_name, OWStreamRecordExRec_create]
      norm_num [add32, mul32, u32]
    rw [e]
    decide
  ⟨hpos, shmem_size_invariant 1 2 3 sized_ops hpos⟩

/-! ## The frame index -/

theorem step_index (filter : OWStreamRecordExRec_data) (op : Op) :
    (step filter op).1.index = filter.index ∧
      ∀ p, (step filter op).2 = some p → p.index = filter.index := by
  cases op with
  | tick env t =>
    refine ⟨?_, fun p hp => by simp [step] at hp⟩
    simp only [step, OWStreamRecordExRec_tick]
    split
    · rfl
    · split
      · rfl
      · rw [(tick_clock_fields _ t).2.2.2.2]
        simp only [tick_geometry]
        split <;> split <;> rfl
  | render env =>
    refine ⟨(render_geometry env filter).2.2.2.2, fun p hp => ?_⟩
    simp only [step, OWStreamRecordExRec_render] at hp
    split at hp
    · simp at hp
    · split at hp
      · split at hp
        · simp only [Option.some.injEq] at hp
          rw [← hp]
        · simp at hp
      · simp at hp
  | update interval => exact ⟨rfl, fun p hp => by simp [step] at hp⟩

theorem publishes_index (ops : List Op) (clock : ℚ) (filter : OWStreamRecordExRec_data)
    (p : ℚ × OWStreamRecordExRec_data) (hp : p ∈ publishes clock filter ops) :
    p.2.index = filter.index := by
  induction ops generalizing clock filter with
  | nil => simp [publishes] at hp
  | cons op ops ih =>
    simp only [publishes] at hp
    split at hp
    · rename_i q hq
      rcases List.mem_cons.mp hp with rfl | hmem
      · exact (step_index filter op).2 q hq
      · rw [ih _ _ hmem, (step_index filter op).1]
    · rw [ih _ _ hp, (step_index filter op).1]

theorem two_publishes :
    publishes 0 (OWStreamRecordExRec_create 1 2 3) two_publish_ops =
      [(1, published_example), (2, published_example)] := by
  have e1 : OWStreamRecordExRec_tick ⟨some (320, 180), 7, 8⟩
      (OWStreamRecordExRec_create 1 2 3) 1 =
      { published_example with data := DataPtr.zeroed 253440, linesize := 0 } := by
    simp [OWStreamRecordExRec_tick, tick_geometry, tick_clock, shmem_name,
      OWStreamRecordExRec_create, published_example]
    norm_num [add32, mul32, u32]
  have e2 : OWStreamRecordExRec_render (render_ok 1280 frame_pixels)
      { published_example with data := DataPtr.zeroed 253440, linesize := 0 } =
      ({ published_example with capture := false }, some published_example) := by
    simp [OWStreamRecordExRec_render, render_ok, published_example]
  have e3 : OWStreamRecordExRec_tick ⟨some (320, 180), 7, 8⟩
      { published_example with capture := false } 1 = published_example := by
    simp [OWStreamRecordExRec_tick, tick_geometry, tick_clock, shmem_name,
      published_example]
    norm_num
  have e4 : OWStreamRecordExRec_render (render_ok 1280 frame_pixels) published_example =
      ({ published_example with capture := false }, some published_example) := by
    simp [OWStreamRecordExRec_render, render_ok, published_example]
  simp only [two_publish_ops, frame, List.cons_append, List.nil_append, publishes, step,
    Op.dt, e1, e2, e3, e4]
  norm_num

/-- C1, failing input. Two frames that each arm and publish (created state, 320 x 180
target, tick delta one second): both publishes carry frame index 0, and the word the
publisher stores at byte offset 12 is 0 both times, so the second frame index is not
greater than the first. -/
theorem publish_frame_index_stuck :
    (publishes 0 (OWStreamRecordExRec_create 1 2 3) two_publish_ops).map
      (fun p => (p.1, p.2.index)) = [(1, 0), (2, 0)] ∧
    (publishes 0 (OWStreamRecordExRec_create 1 2 3) two_publish_ops).map
      (fun p => (UploadThread true p.2).map (fun bytes => word_at bytes 12)) =
      [some 0, some 0] := by
  rw [two_publishes]
  refine ⟨rfl, ?_⟩
  have hw : (UploadThread true published_example).map (fun bytes => word_at bytes 12) =
      some 0 := by
    rw [UploadThread_bytes _ (by decide), Option.map_some', (header_words _ _ _ _ _).2.2.2]
    rfl
  simp only [List.map_cons, List.map_nil, hw]

end OWStreamRecordExRec

namespace OWStreamRecordExRec

/-! ## Frames: a tick followed by a render -/

theorem render_not_armed (env : RenderEnv) (filter : OWStreamRecordExRec_data)
    (hc : filter.capture = false) :
    OWStreamRecordExRec_render env filter = (filter, none) := by
  simp [OWStreamRecordExRec_render, hc]

theorem render_ok_armed (linesize : Nat) (pixels : List Nat)
    (filter : OWStreamRecordExRec_data) (hw : filter.width ≠ 0) (hh : filter.height ≠ 0)
    (hc : filter.capture = true) :
    OWStreamRecordExRec_render (render_ok linesize pixels) filter =
      ({ filter with data := DataPtr.mapped pixels, linesize := linesize, capture := false },
        some { filter with data := DataPtr.mapped pixels, linesize := linesize }) := by
  simp [OWStreamRecordExRec_render, render_ok, hw, hh, hc]

theorem publishes_frame_no_arm (env : TickEnv) (t : ℚ) (renv : RenderEnv)
    (filter : OWStreamRecordExRec_data) (clock : ℚ) (rest : List Op) (w h : Nat)
    (ht : env.target = some (w, h)) (hw : w = filter.width) (hh : h = filter.height)
    (hw0 : w ≠ 0) (hc : filter.capture = false)
    (hno : ¬ filter.since_last + t > filter.interval - 1 / 20) :
    publishes clock filter (frame env t renv ++ rest) =
      publishes (clock + t) { filter with since_last := filter.since_last + t } rest := by
  have e1 : OWStreamRecordExRec_tick env filter t =
      { filter with since_last := filter.since_last + t } := by
    rw [tick_steady env filter t w h ht hw hh (fun hc0 => hw0 hc0.1), tick_clock_eq,
      if_neg hno]
  have e2 : OWStreamRecordExRec_render renv
      { filter with since_last := filter.since_last + t } =
      ({ filter with since_last := filter.since_last + t }, none) :=
    render_not_armed renv _ hc
  simp only [frame, List.cons_append, List.nil_append, List.append_eq, publishes, step,
    Op.dt, e1, e2, add_zero]

theorem publishes_frame_arm (env : TickEnv) (t : ℚ) (linesize : Nat) (pixels : List Nat)
    (filter : OWStreamRecordExRec_data) (clock : ℚ) (rest : List Op) (w h : Nat)
    (ht : env.target = some (w, h)) (hw : w = filter.width) (hh : h = filter.height)
    (hw0 : w ≠ 0) (hh0 : h ≠ 0)
    (harm : filter.since_last + t > filter.interval - 1 / 20) :
    publishes clock filter (frame env t (render_ok linesize pixels) ++ rest) =
      (clock + t,
        { filter with
          capture := true, since_last := 0, linesize := linesize,
          data := DataPtr.mapped pixels }) ::
      publishes (clock + t)
        { filter with
          capture := false, since_last := 0, linesize := linesize,
          data := DataPtr.mapped pixels } rest := by
  have e1 : OWStreamRecordExRec_tick env filter t =
      { filter with capture := true, since_last := 0 } := by
    rw [tick_steady env filter t w h ht hw hh (fun hc0 => hw0 hc0.1), tick_clock_eq,
      if_pos harm]
  have e2 := render_ok_armed linesize pixels
    { filter with capture := true, since_last := 0 } (hw ▸ hw0) (hh ▸ hh0) rfl
  simp only [frame, List.cons_append, List.nil_append, List.append_eq, publishes, step,
    Op.dt, e1, e2, add_zero]

/-! ## The steady-state scenario -/

theorem scenario_length (n k : Nat) (hk : k < 4) (stagesurface filemapping linesize : Nat)
    (pixels : List Nat) (filter : OWStreamRecordExRec_data) (clock : ℚ)
    (hw : filter.width = 320) (hh : filter.height = 180) (hc : filter.capture = false)
    (hi : filter.interval = 1 / 10) (hs : filter.since_last = (k : ℚ) / 60) :
    (publishes clock filter
      (repeat_frames (scenario_frame stagesurface filemapping linesize pixels) n)).length =
      (n + k) / 4 := by
  induction n generalizing k filter clock with
  | zero => simp [repeat_frames, publishes]; omega
  | succ n ih =>
    simp only [repeat_frames, scenario_frame]
    by_cases h3 : k = 3
    · subst h3
      rw [publishes_frame_arm _ _ _ _ _ _ _ 320 180 rfl hw.symm hh.symm (by decide)
        (by decide) (by rw [hs, hi]; norm_num)]
      simp only [List.length_cons]
      have := ih 0 (by decide)
        { filter with
          capture := false, since_last := 0, linesize := linesize,
          data := DataPtr.mapped pixels } (clock + 1 / 60) hw hh rfl hi (by simp)
      simp only [scenario_frame] at this
      rw [this]; omega
    · have hk3 : k < 3 := by omega
      have hno : ¬ filter.since_last + 1 / 60 > filter.interval - 1 / 20 := by
        rw [hs, hi]
        have : (k : ℚ) ≤ 2 := by exact_mod_cast Nat.le_of_lt_succ hk3
        intro hlt
        linarith
      rw [publishes_frame_no_arm _ _ _ _ _ _ 320 180 rfl hw.symm hh.symm (by decide) hc hno]
      have := ih (k + 1) (by omega) { filter with since_last := filter.since_last + 1 / 60 }
        (clock + 1 / 60) hw hh hc hi (by simp only [hs]; push_cast; ring)
      simp only [scenario_frame] at this
      rw [this]; omega

theorem scenario_first_frame (context texrender mutex stagesurface filemapping linesize : Nat)
    (pixels : List Nat) (rest : List Op) :
    publishes 0 (update (OWStreamRecordExRec_create context texrender mutex) (1 / 10))
      (scenario_frame stagesurface filemapping linesize pixels ++ rest) =
    publishes (1 / 60)
      { context := context, interval := 1 / 10, since_last := 1 / 60, capture := false,
        width := 320, height := 180, texrender := texrender,
        staging_texture := stagesurface, data := DataPtr.zeroed 253440, linesize := 0,
        index := 0, shmem_size := 253452, shmem := filemapping, mutex := mutex } rest := by
  have e1 : OWStreamRecordExRec_tick ⟨some (320, 180), stagesurface, filemapping⟩
      (update (OWStreamRecordExRec_create context texrender mutex) (1 / 10)) (1 / 60) =
      { context := context, interval := 1 / 10, since_last := 1 / 60, capture := false,
        width := 320, height := 180, texrender := texrender,
        staging_texture := stagesurface, data := DataPtr.zeroed 253440, linesize := 0,
        index := 0, shmem_size := 253452, shmem := filemapping, mutex := mutex } := by
    simp [OWStreamRecordExRec_tick, tick_geometry, tick_clock, shmem_name, update,
      OWStreamRecordExRec_create]
    norm_num [add32, mul32, u32]
  simp only [scenario_frame, frame, List.cons_append, List.nil_append, List.append_eq,
    publishes, step, Op.dt, e1, render_not_armed, zero_add, add_zero]

theorem scenario_count (context texrender mutex stagesurface filemapping linesize : Nat)
    (pixels : List Nat) :
    (publishes 0 (update (OWStreamRecordExRec_create context texrender mutex) (1 / 10))
      (repeat_frames (scenario_frame stagesurface filemapping linesize pixels) 60)).length =
      15 := by
  rw [show (60 : Nat) = 59 + 1 from rfl, repeat_frames, scenario_first_frame,
    scenario_length 59 1 (by decide) _ _ _ _ _ _ rfl rfl rfl rfl (by norm_num)]

theorem publishes_ticks (env : TickEnv) (t : ℚ) (n : Nat) (rest : List Op)
    (filter : OWStreamRecordExRec_data) (clock : ℚ) :
    publishes clock filter (repeat_frames [Op.tick env t] n ++ rest) =
      publishes (clock + n * t) (run filter (repeat_frames [Op.tick env t] n)) rest := by
  induction n generalizing filter clock with
  | zero => simp [repeat_frames, run]
  | succ n ih =>
    show publishes clock filter (Op.tick env t :: (repeat_frames [Op.tick env t] n ++ rest)) =
      publishes (clock + (n + 1 : Nat) * t)
        (run filter (Op.tick env t :: repeat_frames [Op.tick env t] n)) rest
    simp only [publishes, step, run, Op.dt]
    rw [ih]
    congr 1
    push_cast
    ring

theorem run_ticks_armed (env : TickEnv) (t : ℚ) (w h : Nat) (ht : env.target = some (w, h))
    (hw0 : w ≠ 0) (n : Nat) (filter : OWStreamRecordExRec_data) (hw : filter.width = w)
    (hh : filter.height = h) (hc : filter.capture = true) :
    (run filter (repeat_frames [Op.tick env t] n)).width = w ∧
    (run filter (repeat_frames [Op.tick env t] n)).height = h ∧
    (run filter (repeat_frames [Op.tick env t] n)).capture = true := by
  induction n generalizing filter with
  | zero => exact ⟨hw, hh, hc⟩
  | succ n ih =>
    show (run (OWStreamRecordExRec_tick env filter t) (repeat_frames [Op.tick env t] n)).width
        = w ∧
      (run (OWStreamRecordExRec_tick env filter t) (repeat_frames [Op.tick env t] n)).height
        = h ∧
      (run (OWStreamRecordExRec_tick env filter t) (repeat_frames [Op.tick env t] n)).capture
        = true
    have e : OWStreamRecordExRec_tick env filter t = tick_clock filter t :=
      tick_steady env filter t w h ht hw.symm hh.symm (fun hc0 => hw0 hc0.1)
    rw [e]
    obtain ⟨e1, e2, -, -, -⟩ := tick_clock_fields filter t
    refine ih (tick_clock filter t) (e1.trans hw) (e2.trans hh) ?_
    rw [tick_clock_eq]
    split
    · rfl
    · exact hc

theorem repeat_frames_add (one : List Op) (m n : Nat) :
    repeat_frames one (m + n) = repeat_frames one m ++ repeat_frames one n := by
  induction m with
  | zero => simp [repeat_frames]
  | succ m ih =>
    rw [Nat.succ_add]
    show one ++ repeat_frames one (m + n) = (one ++ repeat_frames one m) ++ repeat_frames one n
    rw [ih, List.append_assoc]

theorem scenario_four_ticks (context texrender mutex stagesurface filemapping : Nat) :
    run (update (OWStreamRecordExRec_create context texrender mutex) (1 / 10))
      (repeat_frames [Op.tick ⟨some (320, 180), stagesurface, filemapping⟩ (1 / 60)] 4) =
      { context := context, interval := 1 / 10, since_last := 0, capture := true,
        width := 320, height := 180, texrender := texrender,
        staging_texture := stagesurface, data := DataPtr.zeroed 253440, linesize := 0,
        index := 0, shmem_size := 253452, shmem := filemapping, mutex := mutex } := by
  have e1 : OWStreamRecordExRec_tick ⟨some (320, 180), stagesurface, filemapping⟩
      (update (OWStreamRecordExRec_create context texrender mutex) (1 / 10)) (1 / 60) =
      { context := context, interval := 1 / 10, since_last := 1 / 60, capture := false,
        width := 320, height := 180, texrender := texrender,
        staging_texture := stagesurface, data := DataPtr.zeroed 253440, linesize := 0,
        index := 0, shmem_size := 253452, shmem := filemapping, mutex := mutex } := by
    simp [OWStreamRecordExRec_tick, tick_geometry, tick_clock, shmem_name, update,
      OWStreamRecordExRec_create]
    norm_num [add32, mul32, u32]
  have e2 : OWStreamRecordExRec_tick ⟨some (320, 180), stagesurface, filemapping⟩
      { context := context, interval := 1 / 10, since_last := 1 / 60, capture := false,
        width := 320, height := 180, texrender := texrender,
        staging_texture := stagesurface, data := DataPtr.zeroed 253440, linesize := 0,
        index := 0, shmem_size := 253452, shmem := filemapping, mutex := mutex } (1 / 60) =
      { context := context, interval := 1 / 10, since_last := 1 / 30, capture := false,
        width := 320, height := 180, texrender := texrender,
        staging_texture := stagesurface, data := DataPtr.zeroed 253440, linesize := 0,
        index := 0, shmem_size := 253452, shmem := filemapping, mutex := mutex } := by
    rw [tick_steady _ _ _ 320 180 rfl rfl rfl (by decide), tick_clock_eq]
    norm_num
  have e3 : OWStreamRecordExRec_tick ⟨some (320, 180), stagesurface, filemapping⟩
      { context := context, interval := 1 / 10, since_last := 1 / 30, capture := false,
        width := 320, height := 180, texrender := texrender,
        staging_texture := stagesurface, data := DataPtr.zeroed 253440, linesize := 0,
        index := 0, shmem_size := 253452, shmem := filemapping, mutex := mutex } (1 / 60) =
      { context := context, interval := 1 / 10, since_last := 1 / 20, capture := false,
        width := 320, height := 180, texrender := texrender,
        staging_texture := stagesurface, data := DataPtr.zeroed 253440, linesize := 0,
        index := 0, shmem_size := 253452, shmem := filemapping, mutex := mutex } := by
    rw [tick_steady _ _ _ 320 180 rfl rfl rfl (by decide), tick_clock_eq]
    norm_num
  have e4 : OWStreamRecordExRec_tick ⟨some (320, 180), stagesurface, filemapping⟩
      { context := context, interval := 1 / 10, since_last := 1 / 20, capture := false,
        width := 320, height := 180, texrender := texrender,
        staging_texture := stagesurface, data := DataPtr.zeroed 253440, linesize := 0,
        index := 0, shmem_size := 253452, shmem := filemapping, mutex := mutex } (1 / 60) =
      { context := context, interval := 1 / 10, since_last := 0, capture := true,
        width := 320, height := 180, texrender := texrender,
        staging_texture := stagesurface, data := DataPtr.zeroed 253440, linesize := 0,
        index := 0, shmem_size := 253452, shmem := filemapping, mutex := mutex } := by
    rw [tick_steady _ _ _ 320 180 rfl rfl rfl (by decide), tick_clock_eq]
    norm_num
  show run (step (step (step (step
    (update (OWStreamRecordExRec_create context texrender mutex) (1 / 10))
    (Op.tick ⟨some (320, 180), stagesurface, filemapping⟩ (1 / 60))).1
    (Op.tick ⟨some (320, 180), stagesurface, filemapping⟩ (1 / 60))).1
    (Op.tick ⟨some (320, 180), stagesurface, filemapping⟩ (1 / 60))).1
    (Op.tick ⟨some (320, 180), stagesurface, filemapping⟩ (1 / 60))).1 [] = _
  simp only [step, run, e1, e2, e3, e4]

theorem publishes_render_armed (linesize : Nat) (pixels : List Nat)
    (filter : OWStreamRecordExRec_data) (clock : ℚ) (hw : filter.width ≠ 0)
    (hh : filter.height ≠ 0) (hc : filter.capture = true) :
    (publishes clock filter [Op.render (render_ok linesize pixels)]).length = 1 := by
  simp only [publishes, step]
  rw [render_ok_armed linesize pixels filter hw hh hc]
  simp only [publishes, List.length_cons, List.length_nil]

theorem scenario_ticks_then_render_count
    (context texrender mutex stagesurface filemapping linesize : Nat) (pixels : List Nat) :
    (publishes 0 (update (OWStreamRecordExRec_create context texrender mutex) (1 / 10))
      (scenario_ticks_then_render stagesurface filemapping linesize pixels)).length = 1 := by
  have hsplit : scenario_ticks_then_render stagesurface filemapping linesize pixels =
      repeat_frames [Op.tick ⟨some (320, 180), stagesurface, filemapping⟩ (1 / 60)] 4 ++
        (repeat_frames [Op.tick ⟨some (320, 180), stagesurface, filemapping⟩ (1 / 60)] 56 ++
          [Op.render (render_ok linesize pixels)]) := by
    rw [scenario_ticks_then_render, ← List.append_assoc, ← repeat_frames_add]
  rw [hsplit, publishes_ticks, scenario_four_ticks, publishes_ticks]
  obtain ⟨r1, r2, r3⟩ := run_ticks_armed ⟨some (320, 180), stagesurface, filemapping⟩ (1 / 60)
    320 180 rfl (by decide) 56
    { context := context, interval := 1 / 10, since_last := 0, capture := true,
      width := 320, height := 180, texrender := texrender,
      staging_texture := stagesurface, data := DataPtr.zeroed 253440, linesize := 0,
      index := 0, shmem_size := 253452, shmem := filemapping, mutex := mutex } rfl rfl rfl
  exact publishes_render_armed linesize pixels _ _ (by rw [r1]; decide) (by rw [r2]; decide) r3

theorem scenario_first_frame_general (context texrender mutex stagesurface filemapping : Nat)
    (interval t : ℚ) (renv : RenderEnv) (rest : List Op)
    (hno : ¬ t > interval - 1 / 20) :
    publishes 0 (update (OWStreamRecordExRec_create context texrender mutex) interval)
      (frame ⟨some (320, 180), stagesurface, filemapping⟩ t renv ++ rest) =
    publishes t
      { context := context, interval := interval, since_last := t, capture := false,
        width := 320, height := 180, texrender := texrender,
        staging_texture := stagesurface, data := DataPtr.zeroed 253440, linesize := 0,
        index := 0, shmem_size := 253452, shmem := filemapping, mutex := mutex } rest := by
  have hg := tick_geometry_changed ⟨some (320, 180), stagesurface, filemapping⟩
    (update (OWStreamRecordExRec_create context texrender mutex) interval) 320 180
    (Or.inl (by simp [update, OWStreamRecordExRec_create]))
  have hsz : mul32 (mul32 (add32 320 32) 180) 4 = 253440 := by decide
  have hsh : add32 12 253440 = 253452 := by decide
  have e1 : OWStreamRecordExRec_tick ⟨some (320, 180), stagesurface, filemapping⟩
      (update (OWStreamRecordExRec_create context texrender mutex) interval) t =
      { context := context, interval := interval, since_last := t, capture := false,
        width := 320, height := 180, texrender := texrender,
        staging_texture := stagesurface, data := DataPtr.zeroed 253440, linesize := 0,
        index := 0, shmem_size := 253452, shmem := filemapping, mutex := mutex } := by
    simp only [OWStreamRecordExRec_tick, hg, hsz, hsh, tick_clock_eq]
    simp only [update, OWStreamRecordExRec_create, zero_add, if_neg hno]
    rw [if_neg (by decide)]
  simp only [frame, List.cons_append, List.nil_append, List.append_eq, publishes, step,
    Op.dt, e1, render_not_armed, zero_add, add_zero]

theorem steady_frames_count_bounds (w h stagesurface filemapping : Nat) (hw0 : w ≠ 0)
    (hh0 : h ≠ 0) (thr : ℚ) (fs : List (ℚ × Nat × List Nat))
    (hd : ∀ f ∈ fs, thr < 4 * f.1 ∧ 2 * f.1 ≤ thr) (k : Nat)
    (filter : OWStreamRecordExRec_data) (clock : ℚ) (hw : filter.width = w)
    (hh : filter.height = h) (hc : filter.capture = false)
    (hi : filter.interval - 1 / 20 = thr)
    (hphase : (k = 0 ∧ filter.since_last = 0) ∨
      (k = 1 ∧ thr < 4 * filter.since_last ∧ 2 * filter.since_last ≤ thr) ∨
      (k = 2 ∧ thr < 2 * filter.since_last ∧ filter.since_last ≤ thr) ∨
      (k = 3 ∧ 3 * thr < 4 * filter.since_last ∧ filter.since_last ≤ thr)) :
    3 * (publishes clock filter
        (steady_frames w h stagesurface filemapping fs)).length ≤ fs.length + min k 2 ∧
    fs.length + k ≤ 4 * (publishes clock filter
        (steady_frames w h stagesurface filemapping fs)).length + 3 := by
  induction fs generalizing k filter clock with
  | nil =>
    simp only [steady_frames, publishes, List.length_nil]
    rcases hphase with ⟨rfl, -⟩ | ⟨rfl, -⟩ | ⟨rfl, -⟩ | ⟨rfl, -⟩ <;> simp
  | cons f fs ih =>
    obtain ⟨t, linesize, pixels⟩ := f
    have hdt := hd (t, linesize, pixels) (List.mem_cons_self _ _)
    have hd' : ∀ g ∈ fs, thr < 4 * g.1 ∧ 2 * g.1 ≤ thr :=
      fun g hg => hd g (List.mem_cons_of_mem _ hg)
    simp only at hdt
    simp only [steady_frames, List.length_cons]
    by_cases harm : filter.since_last + t > filter.interval - 1 / 20
    · rw [publishes_frame_arm _ _ _ _ _ _ _ w h rfl hw.symm hh.symm hw0 hh0 harm]
      simp only [List.length_cons]
      have hrec := ih hd' 0
        { filter with
          capture := false, since_last := 0, linesize := linesize,
          data := DataPtr.mapped pixels } (clock + t) hw hh rfl hi (Or.inl ⟨rfl, rfl⟩)
      have hk : 2 ≤ k ∧ k ≤ 3 := by
        rw [hi] at harm
        rcases hphase with ⟨rfl, hs⟩ | ⟨rfl, hs1, hs2⟩ | ⟨rfl, -⟩ | ⟨rfl, -⟩
        · rw [hs] at harm; exfalso; linarith [hdt.1, hdt.2]
        · exfalso; linarith [hdt.1, hdt.2]
        · exact ⟨le_refl _, by decide⟩
        · exact ⟨by decide, le_refl _⟩
      have hmin : min k 2 = 2 := by omega
      omega
    · rw [publishes_frame_no_arm _ _ _ _ _ _ w h rfl hw.symm hh.symm hw0 hc harm]
      have hle : filter.since_last + t ≤ thr := by
        rw [hi] at harm; exact not_lt.mp harm
      have hk : k ≤ 2 := by
        rcases hphase with ⟨rfl, -⟩ | ⟨rfl, -⟩ | ⟨rfl, -⟩ | ⟨rfl, hs1, -⟩
        · decide
        · decide
        · decide
        · exfalso; linarith [hdt.1]
      have hrec := ih hd' (k + 1) { filter with since_last := filter.since_last + t }
        (clock + t) hw hh hc hi (by
          rcases hphase with ⟨rfl, hs⟩ | ⟨rfl, hs1, hs2⟩ | ⟨rfl, hs1, hs2⟩ | ⟨rfl, hs1, -⟩
          · right; left
            refine ⟨rfl, ?_, ?_⟩
            · show thr < 4 * (filter.since_last + t)
              rw [hs]; linarith [hdt.1]
            · show 2 * (filter.since_last + t) ≤ thr
              rw [hs]; linarith [hdt.2]
          · right; right; left
            refine ⟨rfl, ?_, hle⟩
            show thr < 2 * (filter.since_last + t)
            linarith [hdt.1]
          · right; right; right
            refine ⟨rfl, ?_, hle⟩
            show 3 * thr < 4 * (filter.since_last + t)
            linarith [hdt.1]
          · exfalso; linarith [hdt.1])
      omega

theorem scenario_bounds (context texrender mutex stagesurface filemapping : Nat)
    (interval : ℚ) (fs : List (ℚ × Nat × List Nat)) (hlen : fs.length = 60)
    (hd : ∀ f ∈ fs, interval - 1 / 20 < 4 * f.1 ∧ 2 * f.1 ≤ interval - 1 / 20) :
    15 ≤ (publishes 0 (update (OWStreamRecordExRec_create context texrender mutex) interval)
        (steady_frames 320 180 stagesurface filemapping fs)).length ∧
    (publishes 0 (update (OWStreamRecordExRec_create context texrender mutex) interval)
        (steady_frames 320 180 stagesurface filemapping fs)).length ≤ 20 := by
  cases fs with
  | nil => simp at hlen
  | cons f fs =>
    obtain ⟨t, linesize, pixels⟩ := f
    have hdt := hd (t, linesize, pixels) (List.mem_cons_self _ _)
    have hd' : ∀ g ∈ fs, interval - 1 / 20 < 4 * g.1 ∧ 2 * g.1 ≤ interval - 1 / 20 :=
      fun g hg => hd g (List.mem_cons_of_mem _ hg)
    simp only at hdt
    have hlen' : fs.length = 59 := by simpa using hlen
    have hno : ¬ t > interval - 1 / 20 := by
      intro hgt; linarith [hdt.1, hdt.2]
    simp only [steady_frames]
    rw [scenario_first_frame_general _ _ _ _ _ _ _ _ _ hno]
    have hb := steady_frames_count_bounds 320 180 stagesurface filemapping (by decide)
      (by decide) (interval - 1 / 20) fs hd' 1
      { context := context, interval := interval, since_last := t, capture := false,
        width := 320, height := 180, texrender := texrender,
        staging_texture := stagesurface, data := DataPtr.zeroed 253440, linesize := 0,
        index := 0, shmem_size := 253452, shmem := filemapping, mutex := mutex } t
      rfl rfl rfl rfl (Or.inr (Or.inl ⟨rfl, hdt.1, hdt.2⟩))
    rw [hlen'] at hb
    omega

theorem scenario_f32_length (n k : Nat) (hk : k < 3) (stagesurface filemapping linesize : Nat)
    (pixels : List Nat) (filter : OWStreamRecordExRec_data) (clock : ℚ)
    (hw : filter.width = 320) (hh : filter.height = 180) (hc : filter.capture = false)
    (hi : filter.interval = 1 / 10) (hs : filter.since_last = (k : ℚ) * f32_sixtieth) :
    (publishes clock filter
      (repeat_frames (scenario_frame_f32 stagesurface filemapping linesize pixels) n)).length =
      (n + k) / 3 := by
  induction n generalizing k filter clock with
  | zero => simp [repeat_frames, publishes]; omega
  | succ n ih =>
    simp only [repeat_frames, scenario_frame_f32]
    by_cases h2 : k = 2
    · subst h2
      rw [publishes_frame_arm _ _ _ _ _ _ _ 320 180 rfl hw.symm hh.symm (by decide)
        (by decide) (by rw [hs, hi, f32_sixtieth]; norm_num)]
      simp only [List.length_cons]
      have := ih 0 (by decide)
        { filter with
          capture := false, since_last := 0, linesize := linesize,
          data := DataPtr.mapped pixels } (clock + f32_sixtieth) hw hh rfl hi (by simp)
      simp only [scenario_frame_f32] at this
      rw [this]; omega
    · have hk2 : k < 2 := by omega
      have hno : ¬ filter.since_last + f32_sixtieth > filter.interval - 1 / 20 := by
        rw [hs, hi, f32_sixtieth]
        have : (k : ℚ) ≤ 1 := by exact_mod_cast Nat.le_of_lt_succ hk2
        intro hlt
        linarith
      rw [publishes_frame_no_arm _ _ _ _ _ _ 320 180 rfl hw.symm hh.symm (by decide) hc hno]
      have := ih (k + 1) (by omega)
        { filter with since_last := filter.since_last + f32_sixtieth }
        (clock + f32_sixtieth) hw hh hc hi (by simp only [hs]; push_cast; ring)
      simp only [scenario_frame_f32] at this
      rw [this]; omega

theorem scenario_f32_count (context texrender mutex stagesurface filemapping linesize : Nat)
    (pixels : List Nat) :
    (publishes 0 (update (OWStreamRecordExRec_create context texrender mutex) (1 / 10))
      (repeat_frames (scenario_frame_f32 stagesurface filemapping linesize pixels) 60)).length =
      20 := by
  have hno : ¬ f32_sixtieth > (1 / 10 : ℚ) - 1 / 20 := by
    rw [f32_sixtieth]; norm_num
  have hfirst := scenario_first_frame_general context texrender mutex stagesurface filemapping
    (1 / 10) f32_sixtieth (render_ok linesize pixels)
    (repeat_frames (scenario_frame_f32 stagesurface filemapping linesize pixels) 59) hno
  have hsplit : repeat_frames (scenario_frame_f32 stagesurface filemapping linesize pixels) 60 =
      frame ⟨some (320, 180), stagesurface, filemapping⟩ f32_sixtieth
          (render_ok linesize pixels) ++
        repeat_frames (scenario_frame_f32 stagesurface filemapping linesize pixels) 59 := by
    rw [show (60 : Nat) = 59 + 1 from rfl, repeat_frames, scenario_frame_f32]
  rw [hsplit, hfirst,
    scenario_f32_length 59 1 (by decide) _ _ _ _ _ _ rfl rfl rfl rfl (by simp)]

/-- C5, counterexample. In the steady-state scenario (interval `0.10`, 320 x 180
target, 60 frames of a tick then a successful render) the number of publishes is not
between 9 and 11: neither with the delta exactly `1 / 60` in exact arithmetic nor with
the delta a `float` holds for it, where it is 20; read as 60 ticks followed by a single
render, the scenario gives one publish. -/
theorem scenario_publishes_outside_9_11 :
    ¬ (9 ≤ (publishes 0 (update (OWStreamRecordExRec_create 1 2 3) (1 / 10))
        (repeat_frames (scenario_frame 7 8 1280 frame_pixels) 60)).length ∧
      (publishes 0 (update (OWStreamRecordExRec_create 1 2 3) (1 / 10))
        (repeat_frames (scenario_frame 7 8 1280 frame_pixels) 60)).length ≤ 11) ∧
    (publishes 0 (update (OWStreamRecordExRec_create 1 2 3) (1 / 10))
      (repeat_frames (scenario_frame_f32 7 8 1280 frame_pixels) 60)).length = 20 ∧
    ¬ (9 ≤ (publishes 0 (update (OWStreamRecordExRec_create 1 2 3) (1 / 10))
        (repeat_frames (scenario_frame_f32 7 8 1280 frame_pixels) 60)).length ∧
      (publishes 0 (update (OWStreamRecordExRec_create 1 2 3) (1 / 10))
        (repeat_frames (scenario_frame_f32 7 8 1280 frame_pixels) 60)).length ≤ 11) ∧
    (publishes 0 (update (OWStreamRecordExRec_create 1 2 3) (1 / 10))
      (scenario_ticks_then_render 7 8 1280 frame_pixels)).length = 1 := by
  rw [scenario_count, scenario_f32_count, scenario_ticks_then_render_count]
  decide

/-- C5, amended. In the steady-state scenario (created filter, then the interval set,
320 x 180 target, 60 iterations, each a tick followed by a successful render, exact
arithmetic on the deltas given), when every tick delta is more than a quarter and at
most half of the threshold `interval - 0.05`, the number of publishes is at least 15 and
at most 20: a capture is armed every third or fourth tick.  For interval `0.10` the
deltas allowed are those in `(1 / 80, 1 / 40]`, among them `1 / 60` and the `float`
nearest to it. -/
theorem scenario_publishes_15_to_20 (context texrender mutex stagesurface filemapping : Nat)
    (interval : ℚ) (fs : List (ℚ × Nat × List Nat)) (hlen : fs.length = 60)
    (hd : ∀ f ∈ fs, interval - 1 / 20 < 4 * f.1 ∧ 2 * f.1 ≤ interval - 1 / 20) :
    15 ≤ (publishes 0 (update (OWStreamRecordExRec_create context texrender mutex) interval)
        (steady_frames 320 180 stagesurface filemapping fs)).length ∧
    (publishes 0 (update (OWStreamRecordExRec_create context texrender mutex) interval)
        (steady_frames 320 180 stagesurface filemapping fs)).length ≤ 20 :=
  scenario_bounds context texrender mutex stagesurface filemapping interval fs hlen hd

theorem scenario_publishes_15_to_20_witness :
    f32_frames.length = 60 ∧
    ((1 / 10 : ℚ) - 1 / 20 < 4 * f32_sixtieth ∧ 2 * f32_sixtieth ≤ 1 / 10 - 1 / 20) ∧
    15 ≤ (publishes 0 (update (OWStreamRecordExRec_create 1 2 3) (1 / 10))
        (steady_frames 320 180 7 8 f32_frames)).length ∧
    (publishes 0 (update (OWStreamRecordExRec_create 1 2 3) (1 / 10))
        (steady_frames 320 180 7 8 f32_frames)).length ≤ 20 :=
  have hlen : f32_frames.length = 60 := by rw [f32_frames, List.length_replicate]
  have hrange : (1 / 10 : ℚ) - 1 / 20 < 4 * f32_sixtieth ∧
      2 * f32_sixtieth ≤ 1 / 10 - 1 / 20 := by
    rw [f32_sixtieth]; norm_num
  ⟨hlen, hrange,
    scenario_publishes_15_to_20 1 2 3 7 8 (1 / 10) f32_frames hlen (fun f hf => by
      rw [f32_frames] at hf
      rw [List.eq_of_mem_replicate hf]
      exact hrange)⟩

end OWStreamRecordExRec

namespace OWStreamRecordExRec

/-! ## Spacing of arming ticks and of publishes -/

theorem tick_time_append (a b : List Op) :
    tick_time (a ++ b) = tick_time a + tick_time b := by
  induction a with
  | nil => simp [tick_time]
  | cons op a ih =>
    show op.dt + tick_time (a ++ b) = op.dt + tick_time a + tick_time b
    rw [ih, add_assoc]

theorem steady_step (w h : Nat) (hw0 : w ≠ 0) (filter : OWStreamRecordExRec_data)
    (hw : filter.width = w) (hh : filter.height = h) (op : Op) (hop : SteadyOp w h op) :
    (step filter op).1.width = w ∧ (step filter op).1.height = h ∧
    (step filter op).1.interval = filter.interval ∧
    (arms filter op = true →
      filter.since_last + op.dt > filter.interval - 1 / 20 ∧
        (step filter op).1.since_last = 0) ∧
    (arms filter op = false →
      (step filter op).1.since_last = filter.since_last + op.dt) := by
  cases op with
  | tick env t =>
    obtain ⟨ht, -⟩ := hop
    have hne : ¬ (w = 0 ∧ h = 0) := fun hc => hw0 hc.1
    have harms : arms filter (Op.tick env t) =
        decide (filter.since_last + t > filter.interval - 1 / 20) := by
      subst hw hh
      simp only [arms, tick_arms, ht, if_neg hne, tick_geometry_same]
    simp only [step, Op.dt, harms, decide_eq_true_eq, decide_eq_false_iff_not,
      tick_steady env filter t w h ht hw.symm hh.symm hne]
    obtain ⟨e1, e2, -, e4, -⟩ := tick_clock_fields filter t
    refine ⟨e1.trans hw, e2.trans hh, e4, fun harm => ⟨harm, ?_⟩, fun hno => ?_⟩
    · rw [tick_clock_eq, if_pos harm]
    · rw [tick_clock_eq, if_neg hno]
  | render env =>
    obtain ⟨e1, e2, -, e4, -⟩ := render_geometry env filter
    refine ⟨e1.trans hw, e2.trans hh, e4, fun harm => ?_, fun _ => ?_⟩
    · simp [arms] at harm
    · simp only [step, Op.dt, add_zero]; exact render_since_last env filter
  | update interval => exact hop.elim

theorem steady_run_no_arm (w h : Nat) (hw0 : w ≠ 0) (mid : List Op)
    (filter : OWStreamRecordExRec_data) (hw : filter.width = w) (hh : filter.height = h)
    (hmid : ∀ op ∈ mid, SteadyOp w h op) (hno : no_arm filter mid) :
    (run filter mid).width = w ∧ (run filter mid).height = h ∧
    (run filter mid).interval = filter.interval ∧
    (run filter mid).since_last = filter.since_last + tick_time mid := by
  induction mid generalizing filter with
  | nil => simp [run, tick_time, hw, hh]
  | cons op mid ih =>
    obtain ⟨s1, s2, s3, -, s5⟩ :=
      steady_step w h hw0 filter hw hh op (hmid op (List.mem_cons_self op mid))
    obtain ⟨r1, r2, r3, r4⟩ := ih (step filter op).1 s1 s2
      (fun o ho => hmid o (List.mem_cons_of_mem op ho)) hno.2
    refine ⟨r1, r2, r3.trans s3, ?_⟩
    simp only [run, tick_time]
    rw [r4, s5 hno.1, add_assoc]

theorem arming_spacing_core (w h : Nat) (hw0 : w ≠ 0) (filter : OWStreamRecordExRec_data)
    (hw : filter.width = w) (hh : filter.height = h) (op0 : Op) (mid : List Op) (op1 : Op)
    (h0 : SteadyOp w h op0) (hmid : ∀ op ∈ mid, SteadyOp w h op) (h1 : SteadyOp w h op1)
    (ha0 : arms filter op0 = true) (hno : no_arm (step filter op0).1 mid)
    (ha1 : arms (run (step filter op0).1 mid) op1 = true) :
    filter.interval - 1 / 20 < tick_time (mid ++ [op1]) := by
  obtain ⟨s1, s2, s3, s4, -⟩ := steady_step w h hw0 filter hw hh op0 h0
  obtain ⟨r1, r2, r3, r4⟩ := steady_run_no_arm w h hw0 mid (step filter op0).1 s1 s2 hmid hno
  obtain ⟨-, -, -, t4, -⟩ :=
    steady_step w h hw0 (run (step filter op0).1 mid) r1 r2 op1 h1
  have hgt := (t4 ha1).1
  rw [r4, r3, s3, (s4 ha0).2, zero_add] at hgt
  rw [tick_time_append]
  simpa [tick_time] using hgt

theorem steady_frames_chain (w h stagesurface filemapping : Nat) (hw0 : w ≠ 0) (hh0 : h ≠ 0)
    (thr : ℚ) (fs : List (ℚ × Nat × List Nat)) (filter : OWStreamRecordExRec_data)
    (clock a : ℚ) (hw : filter.width = w) (hh : filter.height = h)
    (hc : filter.capture = false) (hi : filter.interval - 1 / 20 = thr)
    (hs : filter.since_last = clock - a) :
    List.Chain (fun x y => x + thr < y) a
      ((publishes clock filter (steady_frames w h stagesurface filemapping fs)).map
        Prod.fst) := by
  induction fs generalizing filter clock a with
  | nil => simp [steady_frames, publishes]
  | cons f fs ih =>
    obtain ⟨t, linesize, pixels⟩ := f
    simp only [steady_frames]
    by_cases harm : filter.since_last + t > filter.interval - 1 / 20
    · rw [publishes_frame_arm _ _ _ _ _ _ _ w h rfl hw.symm hh.symm hw0 hh0 harm]
      simp only [List.map_cons]
      refine List.Chain.cons ?_ ?_
      · rw [hs, hi] at harm; linarith
      · exact ih
          { filter with
            capture := false, since_last := 0, linesize := linesize,
            data := DataPtr.mapped pixels } (clock + t) (clock + t) hw hh rfl hi (by simp)
    · rw [publishes_frame_no_arm _ _ _ _ _ _ w h rfl hw.symm hh.symm hw0 hc harm]
      exact ih { filter with since_last := filter.since_last + t } (clock + t) a hw hh hc hi
        (by simp only [hs]; ring)

end OWStreamRecordExRec

namespace OWStreamRecordExRec

theorem late_render_publishes :
    publishes 0 (OWStreamRecordExRec_create 1 2 3) late_render_ops =
      [(1, published_example), (19 / 10, { published_example with since_last := 2 / 5 }),
        (2, published_example)] := by
  have e1 : OWStreamRecordExRec_tick ⟨some (320, 180), 7, 8⟩
      (OWStreamRecordExRec_create 1 2 3) 1 =
      { published_example with data := DataPtr.zeroed 253440, linesize := 0 } := by
    simp [OWStreamRecordExRec_tick, tick_geometry, tick_clock, shmem_name,
      OWStreamRecordExRec_create, published_example]
    norm_num [add32, mul32, u32]
  have e2 : OWStreamRecordExRec_render (render_ok 1280 frame_pixels)
      { published_example with data := DataPtr.zeroed 253440, linesize := 0 } =
      ({ published_example with capture := false }, some published_example) := by
    simp [OWStreamRecordExRec_render, render_ok, published_example]
  have e3 : OWStreamRecordExRec_tick ⟨some (320, 180), 7, 8⟩
      { published_example with capture := false } (1 / 2) = published_example := by
    simp [OWStreamRecordExRec_tick, tick_geometry, tick_clock, shmem_name,
      published_example]
  have e4 : OWStreamRecordExRec_tick ⟨some (320, 180), 7, 8⟩ published_example (2 / 5) =
      { published_example with since_last := 2 / 5 } := by
    simp [OWStreamRecordExRec_tick, tick_geometry, tick_clock, shmem_name,
      published_example]
    norm_num
  have e5 : OWStreamRecordExRec_render (render_ok 1280 frame_pixels)
      { published_example with since_last := 2 / 5 } =
      ({ published_example with since_last := 2 / 5, capture := false },
        some { published_example with since_last := 2 / 5 }) := by
    simp [OWStreamRecordExRec_render, render_ok, published_example]
  have e6 : OWStreamRecordExRec_tick ⟨some (320, 180), 7, 8⟩
      { published_example with since_last := 2 / 5, capture := false } (1 / 10) =
      published_example := by
    simp [OWStreamRecordExRec_tick, tick_geometry, tick_clock, shmem_name,
      published_example]
    norm_num
  have e7 : OWStreamRecordExRec_render (render_ok 1280 frame_pixels) published_example =
      ({ published_example with capture := false }, some published_example) := by
    simp [OWStreamRecordExRec_render, render_ok, published_example]
  simp only [late_render_ops, publishes, step, Op.dt, e1, e2, e3, e4, e5, e6, e7]
  norm_num

/-- C4, counterexample. A steady run (320 x 180 target on every tick, interval `0.5`
throughout, every delta positive) in which the host does not render after every tick:
the publishes happen at tick times 1, 1.9 and 2, so the last two are 0.1 s apart, less
than `interval - 0.05 = 0.45`. -/
theorem publish_spacing_violated :
    (∀ op ∈ late_render_ops, SteadyOp 320 180 op) ∧
    (publishes 0 (OWStreamRecordExRec_create 1 2 3) late_render_ops).map Prod.fst =
      [1, 19 / 10, 2] ∧
    (OWStreamRecordExRec_create 1 2 3).interval = 1 / 2 ∧
    ¬ ((1 / 2 : ℚ) - 1 / 20 ≤ 2 - 19 / 10) := by
  refine ⟨?_, ?_, rfl, by norm_num⟩
  · intro op hop
    simp only [late_render_ops, List.mem_cons, List.mem_singleton, List.mem_nil_iff,
      or_false] at hop
    rcases hop with rfl | rfl | rfl | rfl | rfl | rfl | rfl <;>
      first
        | exact trivial
        | exact ⟨rfl, by norm_num⟩
  · rw [late_render_publishes]
    rfl

/-- C4, amended. In steady state at a non-zero `w x h` target (every tick sees that
size, the interval is not rewritten, exact arithmetic): between two consecutive arming
ticks, the deltas of the ticks after the first up to and including the second sum to
more than `interval - 0.05`; and when no capture is pending and the host renders
successfully after every tick, consecutive publishes are more than `interval - 0.05`
seconds of tick time apart. -/
theorem steady_state_spacing (w h : Nat) (hw0 : w ≠ 0) (hh0 : h ≠ 0)
    (filter : OWStreamRecordExRec_data) (hw : filter.width = w) (hh : filter.height = h) :
    (∀ (op0 : Op) (mid : List Op) (op1 : Op),
      SteadyOp w h op0 → (∀ op ∈ mid, SteadyOp w h op) → SteadyOp w h op1 →
      arms filter op0 = true → no_arm (step filter op0).1 mid →
      arms (run (step filter op0).1 mid) op1 = true →
      filter.interval - 1 / 20 < tick_time (mid ++ [op1])) ∧
    (filter.capture = false →
      ∀ (stagesurface filemapping : Nat) (fs : List (ℚ × Nat × List Nat)) (clock : ℚ),
        List.Chain' (fun x y => x + (filter.interval - 1 / 20) < y)
          ((publishes clock filter
            (steady_frames w h stagesurface filemapping fs)).map Prod.fst)) := by
  refine ⟨fun op0 mid op1 h0 hmid h1 ha0 hno ha1 =>
    arming_spacing_core w h hw0 filter hw hh op0 mid op1 h0 hmid h1 ha0 hno ha1,
    fun hc stagesurface filemapping fs clock => ?_⟩
  have hchain := steady_frames_chain w h stagesurface filemapping hw0 hh0
    (filter.interval - 1 / 20) fs filter clock (clock - filter.since_last) hw hh hc rfl
    (by ring)
  exact (List.chain'_cons'.mp hchain).2

theorem steady_state_spacing_witness :
    (arms sized_example (example_tick (1 / 4)) = true ∧
      no_arm (step sized_example (example_tick (1 / 4))).1 [example_tick (2 / 5)] ∧
      arms (run (step sized_example (example_tick (1 / 4))).1 [example_tick (2 / 5)])
        (example_tick (1 / 10)) = true ∧
      sized_example.interval - 1 / 20 <
        tick_time ([example_tick (2 / 5)] ++ [example_tick (1 / 10)])) ∧
    (sized_example.capture = false ∧
      List.Chain' (fun x y => x + (sized_example.interval - 1 / 20) < y)
        ((publishes 0 sized_example
          (steady_frames 320 180 7 8
            [(1 / 4, 1280, frame_pixels), (1 / 2, 1280, frame_pixels)])).map Prod.fst)) :=
  have s1 : (step sized_example (example_tick (1 / 4))).1 =
      { sized_example with capture := true, since_last := 0 } := by
    simp [step, example_tick, OWStreamRecordExRec_tick, tick_geometry, tick_clock,
      shmem_name, sized_example]
    norm_num
  have s2 : run { sized_example with capture := true, since_last := 0 }
      [example_tick (2 / 5)] =
      { sized_example with capture := true, since_last := 2 / 5 } := by
    simp [run, step, example_tick, OWStreamRecordExRec_tick, tick_geometry, tick_clock,
      shmem_name, sized_example]
    norm_num
  have a0 : arms sized_example (example_tick (1 / 4)) = true := by
    simp [arms, tick_arms, example_tick, tick_geometry, shmem_name, sized_example]
    norm_num
  have n1 : no_arm (step sized_example (example_tick (1 / 4))).1 [example_tick (2 / 5)] := by
    rw [s1]
    simp [no_arm, arms, tick_arms, example_tick, tick_geometry, shmem_name, sized_example]
    norm_num
  have a1 : arms (run (step sized_example (example_tick (1 / 4))).1 [example_tick (2 / 5)])
      (example_tick (1 / 10)) = true := by
    rw [s1, s2]
    simp [arms, tick_arms, example_tick, tick_geometry, shmem_name, sized_example]
    norm_num
  ⟨⟨a0, n1, a1,
    (steady_state_spacing 320 180 (by decide) (by decide) sized_example rfl rfl).1
      (example_tick (1 / 4)) [example_tick (2 / 5)] (example_tick (1 / 10))
      ⟨rfl, by norm_num⟩
      (fun op hop => by
        rw [List.mem_singleton.mp hop]
        exact ⟨rfl, by norm_num⟩)
      ⟨rfl, by norm_num⟩ a0 n1 a1⟩,
   ⟨rfl,
    (steady_state_spacing 320 180 (by decide) (by decide) sized_example rfl rfl).2 rfl 7 8
      [(1 / 4, 1280, frame_pixels), (1 / 2, 1280, frame_pixels)] 0⟩⟩

end OWStreamRecordExRec
